import Mathlib

/-!
Shallow embedding of `src/assets/js/particles.js` (an interactive particle
network animation) and verification of its specified properties.

Modelling conventions:
* JavaScript numbers are modelled as real numbers (`ℝ`).
* `Math.random()` results are passed in explicitly as arguments ranging
  over `[0, 1)`.
* The `null`-able mouse coordinates become `Option ℝ` fields.
* Canvas drawing calls are modelled as a list of emitted line records;
  everything else in the drawing context is irrelevant to the claims.
* `Math.atan2 dy dx` is modelled as the argument of the complex number
  `dx + dy * I`, which is the mathematical function atan2 implements.
-/

namespace ParticlesJs

/-- Configuration constants (source: the `config` object, lines 6-15). -/
structure Config where
  particleCount : ℕ
  particleColor : String
  lineColor : String
  particleSize : ℝ
  maxDistance : ℝ
  speed : ℝ
  mouseRadius : ℝ
  mouseForce : ℝ

/-- The literal configuration values of the source. -/
noncomputable def config : Config :=
  { particleCount := 120
    particleColor := "rgba(255, 255, 255, 0.9)"
    lineColor := "rgba(26, 188, 156, 0.4)"
    particleSize := 3.5
    maxDistance := 180
    speed := 0.3
    mouseRadius := 200
    mouseForce := 0.05 }

/-- Canvas dimensions (`canvas.width`, `canvas.height`). -/
structure Canvas where
  width : ℝ
  height : ℝ

/-- Mouse state (`this.mouse = { x: null, y: null }`); `none` models `null`. -/
structure Mouse where
  x : Option ℝ
  y : Option ℝ

/-- Kinematic state of one particle (`this.x/y/vx/vy/size`).  The particle's
`this.canvas` back reference is passed explicitly to the operations that read
it. -/
@[ext]
structure Particle where
  x : ℝ
  y : ℝ
  vx : ℝ
  vy : ℝ
  size : ℝ

instance : Inhabited Particle := ⟨⟨0, 0, 0, 0, 0⟩⟩

/-- `Math.atan2 y x`, modelled as the argument of the complex number
`x + y*I` (this is exactly the function atan2 computes, with
`atan2 0 0 = 0` as in JavaScript). -/
noncomputable def atan2 (y x : ℝ) : ℝ := Complex.arg ⟨x, y⟩

/-- Mouse-interaction block of `Particle.update` (source lines 34-46): if the
mouse coordinates are non-null and the particle is within `mouseRadius` of
them, push the particle away with a linear-falloff force. -/
noncomputable def Particle.applyMouse (p : Particle) (mouse : Mouse) : Particle :=
  match mouse.x, mouse.y with
  | some mx, some my =>
    let dx := p.x - mx
    let dy := p.y - my
    let distance := Real.sqrt (dx * dx + dy * dy)
    if distance < config.mouseRadius then
      let force := (config.mouseRadius - distance) / config.mouseRadius
      let angle := atan2 dy dx
      { p with
        vx := p.vx + Real.cos angle * force * config.mouseForce
        vy := p.vy + Real.sin angle * force * config.mouseForce }
    else p
  | _, _ => p

/-- Position update block (`this.x += this.vx; this.y += this.vy`,
source lines 48-50). -/
noncomputable def Particle.integrate (p : Particle) : Particle :=
  { p with x := p.x + p.vx, y := p.y + p.vy }

/-- Damping block (`this.vx *= 0.99; this.vy *= 0.99`, source lines 52-54). -/
noncomputable def Particle.damp (p : Particle) : Particle :=
  { p with vx := p.vx * 0.99, vy := p.vy * 0.99 }

/-- Keep-particles-moving block (source lines 56-58): each velocity component
whose magnitude is below `0.1` receives a random perturbation
`(r - 0.5) * 0.1`, where `r` stands for the `Math.random()` result. -/
noncomputable def Particle.keepMoving (p : Particle) (rx ry : ℝ) : Particle :=
  let p1 := if |p.vx| < 0.1 then { p with vx := p.vx + (rx - 0.5) * 0.1 } else p
  if |p1.vy| < 0.1 then { p1 with vy := p1.vy + (ry - 0.5) * 0.1 } else p1

/-- Boundary-collision block (source lines 60-68): on each axis, if the
position left `[0, width]` (resp. `[0, height]`), negate the velocity
component and clamp the position with `max 0 (min bound pos)`. -/
noncomputable def Particle.bounce (p : Particle) (canvas : Canvas) : Particle :=
  let p1 :=
    if p.x < 0 ∨ p.x > canvas.width then
      { p with vx := p.vx * (-1), x := max 0 (min canvas.width p.x) }
    else p
  if p1.y < 0 ∨ p1.y > canvas.height then
    { p1 with vy := p1.vy * (-1), y := max 0 (min canvas.height p1.y) }
  else p1

/-- `Particle.update(mouse)` (source lines 33-69): mouse interaction, Euler
integration, damping, minimum-motion floor, boundary collision, in source
order.  `rx`, `ry` are the two `Math.random()` draws of the floor block. -/
noncomputable def Particle.update (p : Particle) (mouse : Mouse) (canvas : Canvas)
    (rx ry : ℝ) : Particle :=
  ((((p.applyMouse mouse).integrate).damp).keepMoving rx ry).bounce canvas

/-- `Particle.reset()` (source lines 25-31): random position inside the
canvas, random velocity in `[-speed/2, speed/2]` per axis, fixed size.
`r1`-`r4` stand for the four `Math.random()` draws. -/
noncomputable def Particle.reset (canvas : Canvas) (r1 r2 r3 r4 : ℝ) : Particle :=
  { x := r1 * canvas.width
    y := r2 * canvas.height
    vx := (r3 - 0.5) * config.speed
    vy := (r4 - 0.5) * config.speed
    size := config.particleSize }

/-- `new Particle(canvas)` (source lines 18-23): `reset()`, then the position
is overwritten with two fresh random draws.  `r` is the stream of
`Math.random()` results, consumed from index `base`. -/
noncomputable def Particle.create (canvas : Canvas) (r : ℕ → ℝ) (base : ℕ) : Particle :=
  let p := Particle.reset canvas (r base) (r (base + 1)) (r (base + 2)) (r (base + 3))
  { p with x := r (base + 4) * canvas.width, y := r (base + 5) * canvas.height }

/-- Simulation state owned by a `ParticleSystem` instance: the particle
array, the shared mouse state and the canvas dimensions. -/
structure SystemState where
  particles : List Particle
  mouse : Mouse
  canvas : Canvas

/-- One line emitted by `drawLines`: endpoints and the computed opacity of
its `rgba` stroke style. -/
structure Line where
  x1 : ℝ
  y1 : ℝ
  x2 : ℝ
  y2 : ℝ
  opacity : ℝ

/-- Line opacity formula of `drawLines`
(`(1 - distance / config.maxDistance) * 0.5`, source line 146). -/
noncomputable def lineOpacity (distance : ℝ) : ℝ :=
  (1 - distance / config.maxDistance) * 0.5

/-- Euclidean distance between two particles, exactly as both `drawLines`
and `update` compute it: `Math.sqrt(dx*dx + dy*dy)`. -/
noncomputable def distOf (p q : Particle) : ℝ :=
  Real.sqrt ((p.x - q.x) * (p.x - q.x) + (p.y - q.y) * (p.y - q.y))

/-- Index pairs `(i, j)` visited by the nested loops of `drawLines`
(source lines 139-140): `i` ranges over `0..n-1` and `j` over `i+1..n-1`. -/
def evaluatedPairs (n : ℕ) : List (ℕ × ℕ) :=
  (List.range n).flatMap fun i =>
    (List.range' (i + 1) (n - (i + 1))).map fun j => (i, j)

/-- Body of the inner `drawLines` loop (source lines 141-153) for the index
pair `(i, j)`: read both particles, compute their distance, and if it is
below `maxDistance` append a stroked line to the context's output.  The
simulation state is threaded through so that its preservation is a theorem
rather than a convention. -/
noncomputable def drawLineBody (s : SystemState) (lines : List Line) (ij : ℕ × ℕ) :
    SystemState × List Line :=
  let pi := s.particles.getD ij.1 default
  let pj := s.particles.getD ij.2 default
  let dx := pi.x - pj.x
  let dy := pi.y - pj.y
  let distance := Real.sqrt (dx * dx + dy * dy)
  if distance < config.maxDistance then
    (s, lines ++ [⟨pi.x, pi.y, pj.x, pj.y, lineOpacity distance⟩])
  else (s, lines)

/-- `ParticleSystem.drawLines()` (source lines 138-156): run the loop body
over every evaluated index pair, returning the final state and the emitted
lines. -/
noncomputable def ParticleSystem.drawLines (s : SystemState) : SystemState × List Line :=
  (evaluatedPairs s.particles.length).foldl
    (fun acc ij => drawLineBody acc.1 acc.2 ij) (s, [])

/-- `ParticleSystem.resize()` (source lines 102-121): adopt the new container
dimensions, and if both previous dimensions were positive, rescale every
particle's position by `(pos / old) * new` on each axis. -/
noncomputable def ParticleSystem.resize (s : SystemState) (newWidth newHeight : ℝ) :
    SystemState :=
  let oldWidth := s.canvas.width
  let oldHeight := s.canvas.height
  let particles :=
    if oldWidth > 0 ∧ oldHeight > 0 then
      s.particles.map fun particle =>
        { particle with
          x := particle.x / oldWidth * newWidth
          y := particle.y / oldHeight * newHeight }
    else s.particles
  { s with canvas := ⟨newWidth, newHeight⟩, particles := particles }

/-- Outcome of `new ParticleSystem(canvasId)` (source lines 80-91), recording
what the constructor did: the particles it created, whether it bound the
event listeners and whether it scheduled the animation loop. -/
structure InitResult where
  particles : List Particle
  eventsBound : Bool
  animationScheduled : Bool

/-- `ParticleSystem` constructor (source lines 80-91): if
`document.getElementById` resolved no canvas (`none`), return immediately -
no particles, no event listeners, no animation frame, and no exception (the
function is total).  Otherwise `init()` creates `particleCount` particles,
`bindEvents()` runs and `animate()` is scheduled.  `r` is the stream of
`Math.random()` results. -/
noncomputable def ParticleSystem.construct (canvas : Option Canvas) (r : ℕ → ℝ) :
    InitResult :=
  match canvas with
  | none => { particles := [], eventsBound := false, animationScheduled := false }
  | some c =>
    { particles :=
        (List.range config.particleCount).map fun i => Particle.create c r (6 * i)
      eventsBound := true
      animationScheduled := true }

/-- Force magnitude applied by the mouse-interaction branch at a given
distance (source lines 40-41): `(mouseRadius - distance) / mouseRadius`
inside the influence radius, and `0` outside it, where the branch is not
taken and the velocity is left untouched. -/
noncomputable def forceAt (distance : ℝ) : ℝ :=
  if distance < config.mouseRadius then
    (config.mouseRadius - distance) / config.mouseRadius
  else 0

end ParticlesJs
namespace ParticlesJs

/-! Projection lemmas for the update stages, used to trace individual
fields through the pipeline. -/

theorem applyMouse_none (p : Particle) : p.applyMouse ⟨none, none⟩ = p := rfl

@[simp] theorem integrate_x (p : Particle) : p.integrate.x = p.x + p.vx := rfl

@[simp] theorem integrate_y (p : Particle) : p.integrate.y = p.y + p.vy := rfl

@[simp] theorem integrate_vx (p : Particle) : p.integrate.vx = p.vx := rfl

@[simp] theorem integrate_vy (p : Particle) : p.integrate.vy = p.vy := rfl

@[simp] theorem damp_x (p : Particle) : p.damp.x = p.x := rfl

@[simp] theorem damp_y (p : Particle) : p.damp.y = p.y := rfl

@[simp] theorem damp_vx (p : Particle) : p.damp.vx = p.vx * 0.99 := rfl

@[simp] theorem damp_vy (p : Particle) : p.damp.vy = p.vy * 0.99 := rfl

theorem keepMoving_x (p : Particle) (rx ry : ℝ) : (p.keepMoving rx ry).x = p.x := by
  unfold Particle.keepMoving; dsimp only; split_ifs <;> rfl

theorem keepMoving_y (p : Particle) (rx ry : ℝ) : (p.keepMoving rx ry).y = p.y := by
  unfold Particle.keepMoving; dsimp only; split_ifs <;> rfl

theorem keepMoving_vx (p : Particle) (rx ry : ℝ) :
    (p.keepMoving rx ry).vx =
      if |p.vx| < 0.1 then p.vx + (rx - 0.5) * 0.1 else p.vx := by
  unfold Particle.keepMoving; dsimp only; split_ifs <;> rfl

theorem keepMoving_vy (p : Particle) (rx ry : ℝ) :
    (p.keepMoving rx ry).vy =
      if |p.vy| < 0.1 then p.vy + (ry - 0.5) * 0.1 else p.vy := by
  unfold Particle.keepMoving; dsimp only; split_ifs <;> rfl

theorem bounce_x (p : Particle) (c : Canvas) :
    (p.bounce c).x =
      if p.x < 0 ∨ p.x > c.width then max 0 (min c.width p.x) else p.x := by
  unfold Particle.bounce; dsimp only; split_ifs <;> rfl

theorem bounce_vx (p : Particle) (c : Canvas) :
    (p.bounce c).vx = if p.x < 0 ∨ p.x > c.width then p.vx * (-1) else p.vx := by
  unfold Particle.bounce; dsimp only; split_ifs <;> rfl

theorem bounce_bounds (p : Particle) (c : Canvas) (hw : 0 ≤ c.width)
    (hh : 0 ≤ c.height) :
    0 ≤ (p.bounce c).x ∧ (p.bounce c).x ≤ c.width ∧
    0 ≤ (p.bounce c).y ∧ (p.bounce c).y ≤ c.height := by
  unfold Particle.bounce
  dsimp only
  split_ifs with h1 h2 h2 <;>
    push_neg at * <;>
    refine ⟨?_, ?_, ?_, ?_⟩ <;>
    first
      | exact le_max_left _ _
      | exact max_le hw (min_le_left _ _)
      | exact max_le hh (min_le_left _ _)
      | tauto

/-- C1: for every particle, pointer state, pre-state, random draws and
non-negative viewport dimensions, the post-update position lies in
`[0, width] × [0, height]`. -/
theorem update_boundary_containment (p : Particle) (mouse : Mouse) (canvas : Canvas)
    (rx ry : ℝ) (hw : 0 ≤ canvas.width) (hh : 0 ≤ canvas.height) :
    0 ≤ (p.update mouse canvas rx ry).x ∧
    (p.update mouse canvas rx ry).x ≤ canvas.width ∧
    0 ≤ (p.update mouse canvas rx ry).y ∧
    (p.update mouse canvas rx ry).y ≤ canvas.height := by
  unfold Particle.update
  exact bounce_bounds _ canvas hw hh

/-- Witness for C1 at a concrete input. -/
theorem update_boundary_containment_witness :
    0 ≤ ((⟨5, 6, 1, 2, 3.5⟩ : Particle).update ⟨none, none⟩ ⟨100, 80⟩ 0.5 0.5).x ∧
    ((⟨5, 6, 1, 2, 3.5⟩ : Particle).update ⟨none, none⟩ ⟨100, 80⟩ 0.5 0.5).x ≤ (100 : ℝ) ∧
    0 ≤ ((⟨5, 6, 1, 2, 3.5⟩ : Particle).update ⟨none, none⟩ ⟨100, 80⟩ 0.5 0.5).y ∧
    ((⟨5, 6, 1, 2, 3.5⟩ : Particle).update ⟨none, none⟩ ⟨100, 80⟩ 0.5 0.5).y ≤ (80 : ℝ) :=
  update_boundary_containment ⟨5, 6, 1, 2, 3.5⟩ ⟨none, none⟩ ⟨100, 80⟩ 0.5 0.5
    (by norm_num) (by norm_num)

/-- C2 counterexample: a particle entering `update` at `x = width + 5` with
`vx = 2` and the pointer absent (width 100, so `x = 105`) leaves with
`vx = -1.98`, not `-2`: damping multiplies the velocity by `0.99` before the
boundary reflection negates it. -/
theorem reflection_counterexample :
    ((⟨105, 50, 2, 0, 3.5⟩ : Particle).update ⟨none, none⟩ ⟨100, 100⟩ 0.5 0.5).x = 100 ∧
    ((⟨105, 50, 2, 0, 3.5⟩ : Particle).update ⟨none, none⟩ ⟨100, 100⟩ 0.5 0.5).vx = -1.98 ∧
    (-1.98 : ℝ) ≠ -2 := by
  refine ⟨?_, ?_, by norm_num⟩ <;>
  · unfold Particle.update Particle.applyMouse Particle.integrate Particle.damp
      Particle.keepMoving Particle.bounce
    norm_num

/-- C2 amended: a particle entering `update` at `x = width + 5` with `vx = 2`
and the pointer absent leaves with `x = width` (clamped) and `vx = -1.98`:
the entering velocity is damped to `2 * 0.99 = 1.98` and then sign-inverted
by the wall reflection. -/
theorem reflection_damped (w h y vy size rx ry : ℝ) (hw : 0 ≤ w) :
    ((⟨w + 5, y, 2, vy, size⟩ : Particle).update ⟨none, none⟩ ⟨w, h⟩ rx ry).x = w ∧
    ((⟨w + 5, y, 2, vy, size⟩ : Particle).update ⟨none, none⟩ ⟨w, h⟩ rx ry).vx = -1.98 := by
  unfold Particle.update
  rw [applyMouse_none]
  have hvx :
      (((⟨w + 5, y, 2, vy, size⟩ : Particle).integrate).damp.keepMoving rx ry).vx
        = 1.98 := by
    rw [keepMoving_vx]
    simp only [damp_vx, integrate_vx]
    rw [if_neg (by rw [abs_of_pos] <;> norm_num)]
    norm_num
  have hx :
      (((⟨w + 5, y, 2, vy, size⟩ : Particle).integrate).damp.keepMoving rx ry).x
        = w + 7 := by
    rw [keepMoving_x]
    simp only [damp_x, integrate_x]
    show w + 5 + 2 = w + 7
    ring
  have hcond :
      (((⟨w + 5, y, 2, vy, size⟩ : Particle).integrate).damp.keepMoving rx ry).x < 0 ∨
      (((⟨w + 5, y, 2, vy, size⟩ : Particle).integrate).damp.keepMoving rx ry).x > w :=
    Or.inr (by rw [hx]; linarith)
  constructor
  · rw [bounce_x, if_pos hcond, hx, min_eq_left (by linarith), max_eq_right hw]
  · rw [bounce_vx, if_pos hcond, hvx]
    norm_num

/-- Witness for C2's amended statement at width 100. -/
theorem reflection_damped_witness :
    ((⟨(100 : ℝ) + 5, 50, 2, 0, 3.5⟩ : Particle).update ⟨none, none⟩ ⟨100, 100⟩ 0.5 0.5).x
      = 100 ∧
    ((⟨(100 : ℝ) + 5, 50, 2, 0, 3.5⟩ : Particle).update ⟨none, none⟩ ⟨100, 100⟩ 0.5 0.5).vx
      = -1.98 :=
  reflection_damped 100 100 50 0 3.5 0.5 0.5 (by norm_num)

/-- Helper: the resting particle at the centre of a 100 x 100 canvas is a
fixed point of `update` when both random draws are `0.5` (perturbation 0). -/
theorem rest_fixed :
    ((⟨50, 50, 0, 0, 3.5⟩ : Particle).update ⟨none, none⟩ ⟨100, 100⟩ 0.5 0.5)
      = ⟨50, 50, 0, 0, 3.5⟩ := by
  unfold Particle.update Particle.applyMouse Particle.integrate Particle.damp
    Particle.keepMoving Particle.bounce
  norm_num

/-- C3 counterexample: with both random draws equal to `0.5` the injected
perturbation is `0`, so a particle whose velocity components are both below
`0.1` in magnitude in one frame still has both below `0.1` after the next
frame's floor logic. -/
theorem velocity_floor_counterexample :
    (|((⟨50, 50, 0, 0, 3.5⟩ : Particle).update ⟨none, none⟩ ⟨100, 100⟩ 0.5 0.5).vx| < 0.1 ∧
     |((⟨50, 50, 0, 0, 3.5⟩ : Particle).update ⟨none, none⟩ ⟨100, 100⟩ 0.5 0.5).vy| < 0.1) ∧
    (|(((⟨50, 50, 0, 0, 3.5⟩ : Particle).update ⟨none, none⟩ ⟨100, 100⟩ 0.5 0.5).update
        ⟨none, none⟩ ⟨100, 100⟩ 0.5 0.5).vx| < 0.1 ∧
     |(((⟨50, 50, 0, 0, 3.5⟩ : Particle).update ⟨none, none⟩ ⟨100, 100⟩ 0.5 0.5).update
        ⟨none, none⟩ ⟨100, 100⟩ 0.5 0.5).vy| < 0.1) := by
  rw [rest_fixed, rest_fixed]
  norm_num

/-- C3 amended: whenever a damped velocity component has magnitude below
`0.1`, the floor logic does inject the perturbation `(r - 0.5) * 0.1`, but
this does not remove the near-zero condition for every random draw: for some
draws (such as `r = 0.5`, a legal `Math.random()` result giving perturbation
`0`) both components stay below `0.1` in later frames as well. -/
theorem velocity_floor_amended :
    (∀ (p : Particle) (rx ry : ℝ), |p.vx| < 0.1 →
        (p.keepMoving rx ry).vx = p.vx + (rx - 0.5) * 0.1) ∧
    (∃ (p : Particle) (c : Canvas) (rx ry : ℝ),
        (0 ≤ rx ∧ rx < 1) ∧ (0 ≤ ry ∧ ry < 1) ∧
        |(p.update ⟨none, none⟩ c rx ry).vx| < 0.1 ∧
        |(p.update ⟨none, none⟩ c rx ry).vy| < 0.1 ∧
        |((p.update ⟨none, none⟩ c rx ry).update ⟨none, none⟩ c rx ry).vx| < 0.1 ∧
        |((p.update ⟨none, none⟩ c rx ry).update ⟨none, none⟩ c rx ry).vy| < 0.1) := by
  constructor
  · intro p rx ry hp
    rw [keepMoving_vx, if_pos hp]
  · refine ⟨⟨50, 50, 0, 0, 3.5⟩, ⟨100, 100⟩, 0.5, 0.5, ⟨by norm_num, by norm_num⟩,
      ⟨by norm_num, by norm_num⟩, ?_, ?_, ?_, ?_⟩ <;> rw [rest_fixed] <;>
      first
        | (rw [rest_fixed]; norm_num)
        | norm_num

/-- Witness for C3's amended statement. -/
theorem velocity_floor_amended_witness :
    ((⟨0, 0, 0.05, 0.2, 3.5⟩ : Particle).keepMoving 0.7 0.3).vx
      = 0.05 + (0.7 - 0.5) * 0.1 :=
  velocity_floor_amended.1 ⟨0, 0, 0.05, 0.2, 3.5⟩ 0.7 0.3 (by rw [abs_lt]; constructor <;> norm_num)

/-- C4: the force magnitude of the mouse branch falls off strictly
monotonically with distance inside `mouseRadius`; at or beyond `mouseRadius`
the branch is not taken and the velocity is exactly unchanged; inside the
radius the velocity change applied by `update`'s mouse block is the
`forceAt` falloff times `mouseForce`, directed along `atan2`. -/
theorem mouse_falloff :
    (∀ d1 d2 : ℝ, d1 < d2 → d2 < config.mouseRadius → forceAt d2 < forceAt d1) ∧
    (∀ (p : Particle) (mx my : ℝ),
        config.mouseRadius ≤
          Real.sqrt ((p.x - mx) * (p.x - mx) + (p.y - my) * (p.y - my)) →
        p.applyMouse ⟨some mx, some my⟩ = p) ∧
    (∀ (p : Particle) (mx my : ℝ),
        Real.sqrt ((p.x - mx) * (p.x - mx) + (p.y - my) * (p.y - my)) <
          config.mouseRadius →
        (p.applyMouse ⟨some mx, some my⟩).vx =
          p.vx + Real.cos (atan2 (p.y - my) (p.x - mx)) *
            forceAt (Real.sqrt ((p.x - mx) * (p.x - mx) + (p.y - my) * (p.y - my))) *
            config.mouseForce) := by
  refine ⟨?_, ?_, ?_⟩
  · intro d1 d2 h12 h2
    have h1 : d1 < config.mouseRadius := lt_trans h12 h2
    unfold forceAt
    rw [if_pos h2, if_pos h1]
    have hr : (0 : ℝ) < config.mouseRadius := by norm_num [config]
    rw [div_lt_div_iff₀ hr hr]
    exact mul_lt_mul_of_pos_right (by linarith) hr
  · intro p mx my h
    unfold Particle.applyMouse
    dsimp only
    rw [if_neg (not_lt.mpr h)]
  · intro p mx my h
    unfold Particle.applyMouse forceAt
    dsimp only
    rw [if_pos h, if_pos h]

/-- Witness for C4 at concrete inputs. -/
theorem mouse_falloff_witness :
    forceAt 100 < forceAt 0 ∧
    ((⟨300, 0, 1, 2, 3.5⟩ : Particle).applyMouse ⟨some 0, some 0⟩
      = (⟨300, 0, 1, 2, 3.5⟩ : Particle)) :=
  ⟨mouse_falloff.1 0 100 (by norm_num) (by norm_num [config]),
   mouse_falloff.2.1 ⟨300, 0, 1, 2, 3.5⟩ 0 0 (by
     rw [show ((300 : ℝ) - 0) * ((300 : ℝ) - 0) + ((0 : ℝ) - 0) * ((0 : ℝ) - 0)
           = 300 ^ 2 by norm_num]
     rw [Real.sqrt_sq (by norm_num : (0 : ℝ) ≤ 300)]
     norm_num [config])⟩

/-- Helper: `Math.atan2 0 0 = 0`. -/
theorem atan2_zero : atan2 0 0 = 0 := by
  unfold atan2
  rw [show (⟨0, 0⟩ : ℂ) = 0 from Complex.ext (by simp) (by simp), Complex.arg_zero]

/-- Helper: the mouse branch with the pointer exactly at the particle's
position is well defined and bumps `vx` by exactly `mouseForce`. -/
theorem applyMouse_center (p : Particle) :
    p.applyMouse ⟨some p.x, some p.y⟩ = { p with vx := p.vx + config.mouseForce } := by
  unfold Particle.applyMouse
  dsimp only
  rw [sub_self, sub_self]
  rw [show Real.sqrt (0 * 0 + 0 * 0) = 0 by norm_num]
  rw [if_pos (by norm_num [config] : (0 : ℝ) < config.mouseRadius)]
  rw [atan2_zero, Real.cos_zero, Real.sin_zero]
  ext <;> dsimp <;> norm_num [config]

/-- C8: `update` is total (the state below is fully defined) even when the
pointer coincides with the particle (distance 0): the guarded computations
give angle `atan2 0 0 = 0` and force `1`, so the velocity change is exactly
`mouseForce` along the x axis, after which the ordinary pipeline runs. -/
theorem update_zero_distance (p : Particle) (c : Canvas) (rx ry : ℝ) :
    p.update ⟨some p.x, some p.y⟩ c rx ry
      = ((({ p with vx := p.vx + config.mouseForce } : Particle).integrate).damp.keepMoving
          rx ry).bounce c ∧
    forceAt 0 * config.mouseForce = config.mouseForce := by
  constructor
  · unfold Particle.update
    rw [applyMouse_center]
  · unfold forceAt
    rw [if_pos (by norm_num [config] : (0 : ℝ) < config.mouseRadius)]
    norm_num [config]

/-- C6: if both previous dimensions were positive, `resize` rescales every
particle to `newX = oldX * newWidth / oldWidth` and
`newY = oldY * newHeight / oldHeight`. -/
theorem resize_rescales (s : SystemState) (nw nh : ℝ)
    (hw : s.canvas.width > 0) (hh : s.canvas.height > 0) :
    (ParticleSystem.resize s nw nh).particles = s.particles.map fun p =>
      { p with x := p.x * nw / s.canvas.width, y := p.y * nh / s.canvas.height } := by
  unfold ParticleSystem.resize
  dsimp only
  rw [if_pos ⟨hw, hh⟩]
  simp only [div_mul_eq_mul_div]

/-- Witness for C6: the particle at relative position `(0.5, 0.5)` of a
`200 x 100` canvas sits at `(200, 100)` after resizing to `400 x 200`. -/
theorem resize_rescales_witness :
    (ParticleSystem.resize ⟨[⟨100, 50, 0, 0, 3.5⟩], ⟨none, none⟩, ⟨200, 100⟩⟩ 400 200).particles
      = [⟨200, 100, 0, 0, 3.5⟩] := by
  rw [resize_rescales ⟨[⟨100, 50, 0, 0, 3.5⟩], ⟨none, none⟩, ⟨200, 100⟩⟩ 400 200
    (by norm_num) (by norm_num)]
  norm_num

/-- C9: a constructor call that resolves no canvas is a silent no-op (no
particles, no event listeners, no animation frame, and the function is total
so no exception escapes), and this is the only such path: with a canvas,
`particleCount` particles are created, events are bound and the animation is
scheduled. -/
theorem construct_missing_canvas (r : ℕ → ℝ) (c : Canvas) :
    ParticleSystem.construct none r
      = { particles := [], eventsBound := false, animationScheduled := false } ∧
    (ParticleSystem.construct (some c) r).particles.length = config.particleCount ∧
    (ParticleSystem.construct (some c) r).eventsBound = true ∧
    (ParticleSystem.construct (some c) r).animationScheduled = true := by
  refine ⟨rfl, ?_, rfl, rfl⟩
  unfold ParticleSystem.construct
  dsimp only
  rw [List.length_map, List.length_range]

theorem drawLineBody_fst (s : SystemState) (lines : List Line) (ij : ℕ × ℕ) :
    (drawLineBody s lines ij).1 = s := by
  unfold drawLineBody
  dsimp only
  split_ifs <;> rfl

theorem foldl_drawLineBody_fst (l : List (ℕ × ℕ)) (s : SystemState) (lines : List Line) :
    (l.foldl (fun acc ij => drawLineBody acc.1 acc.2 ij) (s, lines)).1 = s := by
  induction l generalizing lines with
  | nil => rfl
  | cons hd tl ih =>
    rw [List.foldl_cons]
    show (List.foldl _ (drawLineBody s lines hd) tl).1 = s
    have h1 : drawLineBody s lines hd = (s, (drawLineBody s lines hd).2) :=
      Prod.ext (drawLineBody_fst s lines hd) rfl
    rw [h1]
    exact ih _

/-- C10: `drawLines` leaves the simulation state - every particle's
position, velocity and size, the mouse state and the canvas - unchanged; its
only output is the list of emitted lines. -/
theorem drawLines_preserves_state (s : SystemState) :
    (ParticleSystem.drawLines s).1 = s :=
  foldl_drawLineBody_fst _ s []

/-- Helper: `drawLines` on a two-particle field emits one line when the
particles are closer than `maxDistance` and none otherwise. -/
theorem drawLines_pair (p q : Particle) (m : Mouse) (c : Canvas) :
    (ParticleSystem.drawLines ⟨[p, q], m, c⟩).2 =
      if distOf p q < config.maxDistance
      then [⟨p.x, p.y, q.x, q.y, lineOpacity (distOf p q)⟩] else [] := by
  unfold ParticleSystem.drawLines distOf
  rw [show evaluatedPairs (⟨[p, q], m, c⟩ : SystemState).particles.length = [(0, 1)]
    from rfl]
  rw [List.foldl_cons, List.foldl_nil]
  show (drawLineBody ⟨[p, q], m, c⟩ [] (0, 1)).2 = _
  unfold drawLineBody
  dsimp only
  simp only [List.getD_cons_zero, List.getD_cons_succ]
  split_ifs <;> rfl

/-- C5: the computed line opacity is `0.5` at distance `0` (its maximum over
non-negative distances), `0` at distance `maxDistance`, no line at all is
emitted for two particles farther apart than `maxDistance`, and the
two-particle scenario at `(0,0)` and `(50,0)` yields exactly one line of
opacity `(1 - 50/180) * 0.5`. -/
theorem connection_opacity :
    lineOpacity 0 = 0.5 ∧
    lineOpacity config.maxDistance = 0 ∧
    (∀ d : ℝ, 0 ≤ d → lineOpacity d ≤ 0.5) ∧
    (∀ (p q : Particle) (m : Mouse) (c : Canvas),
        config.maxDistance < distOf p q →
        (ParticleSystem.drawLines ⟨[p, q], m, c⟩).2 = []) ∧
    (ParticleSystem.drawLines
        ⟨[⟨0, 0, 0, 0, 3.5⟩, ⟨50, 0, 0, 0, 3.5⟩], ⟨none, none⟩, ⟨800, 600⟩⟩).2
      = [⟨0, 0, 50, 0, (1 - 50 / 180) * 0.5⟩] := by
  refine ⟨by unfold lineOpacity; norm_num, by unfold lineOpacity; norm_num [config],
    ?_, ?_, ?_⟩
  · intro d hd
    unfold lineOpacity
    have h180 : (0 : ℝ) ≤ d / config.maxDistance :=
      div_nonneg hd (by norm_num [config])
    linarith
  · intro p q m c h
    rw [drawLines_pair, if_neg (not_lt.mpr (le_of_lt h))]
  · rw [drawLines_pair]
    have hd : distOf ⟨0, 0, 0, 0, 3.5⟩ ⟨50, 0, 0, 0, 3.5⟩ = 50 := by
      unfold distOf
      dsimp only
      rw [show ((0 : ℝ) - 50) * ((0 : ℝ) - 50) + ((0 : ℝ) - 0) * ((0 : ℝ) - 0)
            = 50 ^ 2 by norm_num]
      exact Real.sqrt_sq (by norm_num)
    rw [hd, if_pos (by norm_num [config])]
    unfold lineOpacity
    norm_num [config]

/-- Witness for C5 at concrete inputs: opacity at distance 90 is at most the
maximum 0.5, and two particles 300 apart produce no line. -/
theorem connection_opacity_witness :
    lineOpacity 90 ≤ 0.5 ∧
    (ParticleSystem.drawLines
        ⟨[⟨0, 0, 0, 0, 3.5⟩, ⟨300, 0, 0, 0, 3.5⟩], ⟨none, none⟩, ⟨800, 600⟩⟩).2 = [] :=
  ⟨connection_opacity.2.2.1 90 (by norm_num),
   connection_opacity.2.2.2.1 ⟨0, 0, 0, 0, 3.5⟩ ⟨300, 0, 0, 0, 3.5⟩ ⟨none, none⟩
     ⟨800, 600⟩ (by
       unfold distOf
       dsimp only
       rw [show ((0 : ℝ) - 300) * ((0 : ℝ) - 300) + ((0 : ℝ) - 0) * ((0 : ℝ) - 0)
             = 300 ^ 2 by norm_num]
       rw [Real.sqrt_sq (by norm_num : (0 : ℝ) ≤ 300)]
       norm_num [config])⟩

theorem flatMap_pairs_length (n : ℕ) (l : List ℕ) :
    (l.flatMap fun i => (List.range' (i + 1) (n - (i + 1))).map fun j => (i, j)).length
      = (l.map fun i => n - (i + 1)).sum := by
  induction l with
  | nil => rfl
  | cons hd tl ih =>
    rw [List.flatMap_cons, List.length_append, List.length_map, List.length_range',
      List.map_cons, List.sum_cons, ih]

theorem sum_shift (n : ℕ) (l : List ℕ) (hl : ∀ i ∈ l, i < n) :
    (l.map fun i => n - i).sum = (l.map fun i => n - (i + 1)).sum + l.length := by
  induction l with
  | nil => rfl
  | cons hd tl ih =>
    rw [List.map_cons, List.sum_cons, List.map_cons, List.sum_cons, List.length_cons,
      ih fun i hi => hl i (List.mem_cons_of_mem _ hi)]
    have hhd : hd < n := hl hd (List.mem_cons_self _ _)
    omega

theorem sum_range_sub (n : ℕ) :
    2 * ((List.range n).map fun i => n - (i + 1)).sum = n * (n - 1) := by
  induction n with
  | zero => rfl
  | succ m ih =>
    rw [List.range_succ, List.map_append, List.sum_append]
    have hmap : ((List.range m).map fun i => m + 1 - (i + 1))
        = (List.range m).map fun i => m - i :=
      List.map_congr_left fun i _ => by omega
    rw [hmap, sum_shift m (List.range m) fun i hi => List.mem_range.mp hi,
      List.length_range]
    simp only [List.map_cons, List.map_nil, List.sum_cons, List.sum_nil,
      Nat.sub_self, Nat.add_zero]
    cases m with
    | zero => rfl
    | succ k =>
      have e1 : 2 * ((((List.range (k + 1)).map fun i => k + 1 - (i + 1)).sum) + (k + 1))
          = 2 * ((List.range (k + 1)).map fun i => k + 1 - (i + 1)).sum
            + 2 * (k + 1) := by ring
      rw [e1, ih]
      simp only [Nat.add_sub_cancel]
      ring

theorem evaluatedPairs_length (n : ℕ) :
    (evaluatedPairs n).length = n * (n - 1) / 2 := by
  unfold evaluatedPairs
  rw [flatMap_pairs_length, ← sum_range_sub n, Nat.mul_div_cancel_left _ (by norm_num)]

theorem evaluatedPairs_mem (n i j : ℕ) :
    (i, j) ∈ evaluatedPairs n ↔ i < j ∧ j < n := by
  unfold evaluatedPairs
  rw [List.mem_flatMap]
  constructor
  · rintro ⟨a, ha, hmem⟩
    rw [List.mem_map] at hmem
    obtain ⟨b, hb, heq⟩ := hmem
    rw [List.mem_range] at ha
    rw [List.mem_range'_1] at hb
    injection heq with h1 h2
    subst h1
    subst h2
    omega
  · rintro ⟨hij, hjn⟩
    refine ⟨i, List.mem_range.mpr (lt_trans hij hjn), List.mem_map.mpr ⟨j, ?_, rfl⟩⟩
    rw [List.mem_range'_1]
    omega

theorem evaluatedPairs_nodup (n : ℕ) : (evaluatedPairs n).Nodup := by
  unfold evaluatedPairs
  rw [List.nodup_flatMap]
  constructor
  · intro i _
    exact (List.nodup_range' _ _).map fun a b hab => by simpa using hab
  · refine (List.pairwise_lt_range n).imp ?_
    intro a b hab x hxa hxb
    rw [List.mem_map] at hxa hxb
    obtain ⟨ja, _, rfl⟩ := hxa
    obtain ⟨jb, _, heq⟩ := hxb
    injection heq with h1 h2
    omega

/-- C7: on a field of `N` particles, one `drawLines` call evaluates the
distance of exactly `N*(N-1)/2` index pairs, and the evaluated pair list
contains each unordered pair `(i, j)` with `i ≠ j` exactly once (it appears
in its `i < j` orientation only, with no duplicates). -/
theorem pairwise_completeness (s : SystemState) :
    (evaluatedPairs s.particles.length).length
      = s.particles.length * (s.particles.length - 1) / 2 ∧
    (∀ i j : ℕ, i < s.particles.length → j < s.particles.length → i ≠ j →
        ((i, j) ∈ evaluatedPairs s.particles.length ↔ i < j)) ∧
    (evaluatedPairs s.particles.length).Nodup ∧
    ParticleSystem.drawLines s
      = (evaluatedPairs s.particles.length).foldl
        (fun acc ij => drawLineBody acc.1 acc.2 ij) (s, []) := by
  refine ⟨evaluatedPairs_length _, ?_, evaluatedPairs_nodup _, rfl⟩
  intro i j hi hj hij
  rw [evaluatedPairs_mem]
  exact ⟨fun h => h.1, fun h => ⟨h, hj⟩⟩

/-- Witness for C7 on a concrete four-particle field. -/
theorem pairwise_completeness_witness :
    (evaluatedPairs 4).length = 4 * (4 - 1) / 2 ∧
    (((2, 1) ∈ evaluatedPairs 4) ↔ 2 < 1) ∧
    (((1, 2) ∈ evaluatedPairs 4) ↔ 1 < 2) := by
  have h := pairwise_completeness
    ⟨[⟨0, 0, 0, 0, 3.5⟩, ⟨0, 0, 0, 0, 3.5⟩, ⟨0, 0, 0, 0, 3.5⟩, ⟨0, 0, 0, 0, 3.5⟩],
      ⟨none, none⟩, ⟨800, 600⟩⟩
  exact ⟨h.1, h.2.1 2 1 (by norm_num) (by norm_num) (by norm_num),
    h.2.1 1 2 (by norm_num) (by norm_num) (by norm_num)⟩

end ParticlesJs
